import Mathlib

/-!
Verification of the "#deerzone chart" client (`web/app/page.js`, latest
revision, here `src/unnamed/part_000`): a shallow embedding of its
vote-selection and chart-view logic, with theorems settling the spec's
claims about selection toggling, selection pruning, vote submission,
view derivation, search filtering, stale fetches, audio previews and
fetch-failure handling.

Modelling conventions:
* JS `Set` of song ids becomes `Finset ℕ`; JS arrays become `List`.
* React state (`week`, `songs`, `selected`, `error`, `isVoting`,
  `voteOk`) becomes an explicit `AppState` record; an async handler is
  split into its synchronous guard phase and the function applying the
  resolved network response, exactly following the code's branches.
* `String.prototype.toLowerCase` / `localeCompare` are modelled as
  code-point-wise lowering and ordinary lexicographic comparison of the
  lowered code-point sequences (the spec fixes "ordinary lexicographic
  string comparison"); `Array.prototype.sort` (stable per ECMAScript)
  is modelled by `List.mergeSort`.
-/

namespace Deerzone

/-- Song record as delivered by the songs endpoint, with the fields the
client reads: `id`, `artist`, `title`, `is_new`, `source`,
`preview_url`. -/
structure Song where
  id : Nat
  artist : String
  title : String
  is_new : Bool
  source : String
  preview_url : Option String
  deriving DecidableEq, Repr

/-- Code-point-wise `toLowerCase`: the sequence of lowered code points
of a string. -/
def lowKey (s : String) : List Nat := s.data.map (fun c => c.toLower.toNat)

/-- Three-way lexicographic comparison of code-point sequences; models
`localeCompare` on already-lowered strings as ordinary lexicographic
comparison. -/
def lexOrd : List Nat → List Nat → Ordering
  | [], [] => .eq
  | [], _ :: _ => .lt
  | _ :: _, [] => .gt
  | a :: as, b :: bs =>
    match compare a b with
    | .eq => lexOrd as bs
    | o => o

/-- The `sortByArtistThenTitle` comparator: compare lowered artists,
tie-break on lowered titles. -/
def sortByArtistThenTitle (a b : Song) : Ordering :=
  match lexOrd (lowKey a.artist) (lowKey b.artist) with
  | .eq => lexOrd (lowKey a.title) (lowKey b.title)
  | o => o

/-- Boolean "comparator result is not positive", the `≤` relation that
`Array.prototype.sort` realises for this comparator. -/
def songLE (a b : Song) : Bool :=
  match sortByArtistThenTitle a b with
  | .gt => false
  | _ => true

/-- The three chart tabs of the latest revision. -/
inductive Tab where
  | all
  | new
  | current
  deriving DecidableEq, Repr

/-- Tab filter of the `displaySongs` memo: `all` keeps everything,
`new` keeps `is_new` songs, `current` keeps `source === "carryover"`. -/
def tabPred : Tab → Song → Bool
  | .all, _ => true
  | .new, s => s.is_new
  | .current, s => s.source == "carryover"

/-- The `displaySongs` memo: copy the raw list, apply the tab filter,
stable-sort by artist then title.  The memo does not look at the search
text. -/
def displaySongs (songs : List Song) (tab : Tab) : List Song :=
  (songs.filter (tabPred tab)).mergeSort songLE

/-- `toggleSong`: delete the id if present, otherwise add it.  The code
has no size check here. -/
def toggleSong (selected : Finset Nat) (songId : Nat) : Finset Nat :=
  if songId ∈ selected then selected.erase songId else insert songId selected

/-- The `MAX` constant of `submitVote`. -/
def MAX_SELECTION : Nat := 10

/-- The React state of the `Home` component that the claims are about. -/
structure AppState where
  week : Option Nat
  songs : List Song
  selected : Finset Nat
  error : String
  isVoting : Bool
  voteOk : Bool
  deriving DecidableEq

/-- Query parameters of the songs request
`/weeks/{id}/songs?filter=all&search={q}`: the tab is not sent (always
`filter=all`), the raw search text is. -/
structure SongsQuery where
  weekId : Nat
  filter : String
  search : String
  deriving DecidableEq

/-- The query the songs fetch effect builds for week `weekId` and
search text `q`. -/
def songsQuery (weekId : Nat) (q : String) : SongsQuery :=
  { weekId := weekId, filter := "all", search := q }

/-- Resolution of a successful songs fetch: store the parsed array and
clear the error.  The effect stores the response unconditionally — it
records no request parameters to compare against (no stale-response
guard) and it does not touch `selected` (no pruning). -/
def applySongsSuccess (s : AppState) (data : List Song) : AppState :=
  { s with songs := data, error := "" }

/-- Resolution of a failed songs fetch: a non-2xx status throws
`HTTP {status}` into the same `catch` as a transport failure, which
does `setSongs([])` and sets the load-error message. -/
def applySongsFailure (s : AppState) : AppState :=
  { s with songs := [], error := "Не удалось загрузить список" }

/-- Message of the missing-`initData` guard in `submitVote`. -/
def submitMsgNoInit : String :=
  "Голосование доступно только при открытии через Telegram (нужен initData)."

/-- Message of the empty-selection guard in `submitVote`. -/
def submitMsgEmpty : String := "Выбери хотя бы одну песню."

/-- Message of the oversize-selection guard in `submitVote`
(`Можно выбрать максимум ${MAX} песен.`). -/
def submitMsgMax : String :=
  "Можно выбрать максимум " ++ toString MAX_SELECTION ++ " песен."

/-- Outcome of the synchronous phase of `submitVote`: either it
returned before `fetch` (`noCall`, with the state it left behind), or
it entered the `try` block and issued exactly one POST
(`call`, carrying the state after `setIsVoting(true); setError("")`
and the request's week id and `song_ids` body; `Array.from(selected)`
is modelled as the sorted enumeration of the id set, since the
`Finset` model does not retain JS insertion order). -/
inductive SubmitStep where
  | noCall (s : AppState)
  | call (s : AppState) (weekId : Nat) (song_ids : List Nat)
  deriving DecidableEq

/-- Whether the step issued a network call. -/
def SubmitStep.madeCall : SubmitStep → Bool
  | .noCall _ => false
  | .call .. => true

/-- The state a step left behind. -/
def SubmitStep.state : SubmitStep → AppState
  | .noCall s => s
  | .call s .. => s

/-- Guard phase of `submitVote`, in source order: missing week id →
silent return; empty `initData` → Telegram message; empty selection →
empty message; more than `MAX` selected → max message; otherwise set
`isVoting`, clear the error and issue the POST. -/
def submitVoteGuard (s : AppState) (initData : String) : SubmitStep :=
  match s.week with
  | none => .noCall s
  | some wid =>
    if initData = "" then .noCall { s with error := submitMsgNoInit }
    else if s.selected.card = 0 then .noCall { s with error := submitMsgEmpty }
    else if MAX_SELECTION < s.selected.card then
      .noCall { s with error := submitMsgMax }
    else .call { s with isVoting := true, error := "" } wid (s.selected.sort (· ≤ ·))

/-- The VOTE button forwards a press to `submitVote` only when it is
enabled: it is `disabled` while `selectedCount === 0 || isVoting`, so a
press in that state changes nothing. -/
def pressVote (s : AppState) (initData : String) : SubmitStep :=
  if s.selected.card = 0 || s.isVoting then .noCall s
  else submitVoteGuard s initData

/-- A resolved vote request: an HTTP response with status and body
detail, or a transport failure thrown by `fetch`. -/
inductive VoteResponse where
  | http (status : Nat) (detail : String)
  | netFail
  deriving DecidableEq

/-- `Response.ok`: status in the 2xx range. -/
def isOk (status : Nat) : Bool := 200 ≤ status && status < 300

/-- Whether a resolved response counts as success (`r.ok`). -/
def respOk : VoteResponse → Bool
  | .http status _ => isOk status
  | .netFail => false

/-- Which branch of `submitVote`'s response handling ran. -/
inductive VoteOutcome where
  | success
  | error
  deriving DecidableEq

/-- Error message for a resolved non-2xx vote response
(`Ошибка голосования (${r.status}): ${detail}`). -/
def voteHttpErrMsg (status : Nat) (detail : String) : String :=
  "Ошибка голосования (" ++ toString status ++ "): " ++ detail

/-- Error message of `submitVote`'s `catch` (transport failure). -/
def voteNetErrMsg : String := "Не удалось отправить голос. Проверь интернет/сервер."

/-- Resolution phase of `submitVote`, applied to the post-guard state:
on `r.ok` set `voteOk`, clear the selection; on non-2xx set the error
and return; on a thrown transport error set the catch message; in all
branches the `finally` does `setIsVoting(false)`. -/
def applyVoteResponse (s : AppState) (resp : VoteResponse) : AppState × VoteOutcome :=
  match resp with
  | .http status detail =>
    if isOk status then
      ({ s with voteOk := true, selected := ∅, isVoting := false }, .success)
    else
      ({ s with error := voteHttpErrMsg status detail, isVoting := false }, .error)
  | .netFail => ({ s with error := voteNetErrMsg, isVoting := false }, .error)

/-- An `Audio` element the page has created: the song it plays and
whether it is currently audible (not paused, not ended, play not
rejected). -/
structure AudioObj where
  songId : Nat
  active : Bool
  deriving DecidableEq, Repr

/-- Audio-preview state: every `Audio` created so far (in creation
order), `audioRef` as an index into that list, and `playingId`. -/
structure PreviewState where
  audios : List AudioObj
  current : Option Nat
  playingId : Option Nat
  deriving DecidableEq, Repr

/-- Initial preview state: `audioRef.current = null`,
`playingId = null`. -/
def initPreview : PreviewState := { audios := [], current := none, playingId := none }

/-- Mark the audio at index `i` as not audible (`pause()`). -/
def pauseAt (l : List AudioObj) (i : Nat) : List AudioObj :=
  match l[i]? with
  | some a => l.set i { a with active := false }
  | none => l

/-- `stopAudio`: pause the current audio if any, drop the ref, clear
`playingId`. -/
def stopAudio (ps : PreviewState) : PreviewState :=
  { audios :=
      match ps.current with
      | some i => pauseAt ps.audios i
      | none => ps.audios
    current := none
    playingId := none }

/-- Whether `hay` contains `needle` as a contiguous substring, as
`String.prototype.includes`. -/
def strContains (hay needle : List Char) : Bool :=
  (List.range (hay.length + 1)).any (fun i => needle.isPrefixOf (hay.drop i))

/-- The YouTube-link test of `playPreview`:
`p.includes("youtube.com") || p.includes("youtu.be")`. -/
def isYouTubeUrl (p : String) : Bool :=
  strContains p.data "youtube.com".data || strContains p.data "youtu.be".data

/-- `playPreview(song)`: clicking the playing song stops it; otherwise
stop whatever plays, then — if the song has a `preview_url` — either
open a YouTube link externally (no audio state change) or create a new
`Audio`, point `audioRef` at it and set `playingId`; with no
`preview_url` only an error notice is shown. -/
def playPreview (ps : PreviewState) (song : Song) : PreviewState :=
  if ps.playingId = some song.id then stopAudio ps
  else
    let ps1 := stopAudio ps
    match song.preview_url with
    | some p =>
      if isYouTubeUrl p then ps1
      else
        { audios := ps1.audios ++ [{ songId := song.id, active := true }]
          current := some ps1.audios.length
          playingId := some song.id }
    | none => ps1

/-- The `onended` handler of the current audio: the sound has finished
(so it is no longer audible), `playingId` and `audioRef` are cleared. -/
def onEnded (ps : PreviewState) : PreviewState :=
  match ps.current with
  | some i => { audios := pauseAt ps.audios i, current := none, playingId := none }
  | none => ps

/-- The rejection handler of `a.play()`: the sound never became
audible and `setPlayingId(null)` runs (`audioRef` is left in place). -/
def onPlayFailed (ps : PreviewState) : PreviewState :=
  match ps.current with
  | some i => { ps with audios := pauseAt ps.audios i, playingId := none }
  | none => { ps with playingId := none }

/-- The unmount cleanup effect: pause the current audio and null the
ref. -/
def teardownPreview (ps : PreviewState) : PreviewState :=
  match ps.current with
  | some i => { ps with audios := pauseAt ps.audios i, current := none }
  | none => { ps with current := none }

/-- The preview-related events the page can process. -/
inductive PEvent where
  | toggle (song : Song)
  | ended
  | playFailed
  | teardown
  deriving DecidableEq, Repr

/-- One preview event step. -/
def stepPreview (ps : PreviewState) : PEvent → PreviewState
  | .toggle song => playPreview ps song
  | .ended => onEnded ps
  | .playFailed => onPlayFailed ps
  | .teardown => teardownPreview ps

/-- Run a sequence of preview events from the initial state. -/
def runPreview (es : List PEvent) : PreviewState :=
  es.foldl stepPreview initPreview

/-- Number of simultaneously audible audios. -/
def activeCount (ps : PreviewState) : Nat :=
  ps.audios.countP (fun a => a.active)

/-! Concrete fixtures used by counterexamples and witnesses. -/

/-- A minimal song with the given id. -/
def songOf (i : Nat) : Song :=
  { id := i, artist := "a", title := "t", is_new := false, source := "", preview_url := none }

/-- A state with week 1 loaded and ids 1, 2, 3 selected. -/
def stateSel123 : AppState :=
  { week := some 1, songs := [songOf 1, songOf 2, songOf 3],
    selected := {1, 2, 3}, error := "", isVoting := false, voteOk := false }

/-- A quiescent state with week 1 loaded and an empty selection. -/
def stateEmptySel : AppState :=
  { week := some 1, songs := [], selected := ∅, error := "",
    isVoting := false, voteOk := false }

/-- A state with week 1 loaded and eleven ids selected. -/
def stateSel11 : AppState :=
  { week := some 1, songs := [],
    selected := {1, 2, 3, 4, 5, 6, 7, 8, 9, 10, 11}, error := "",
    isVoting := false, voteOk := false }

/-- A state with week 1 loaded and exactly id 1 selected. -/
def stateOneSel : AppState :=
  { week := some 1, songs := [], selected := {1}, error := "",
    isVoting := false, voteOk := false }

/-! Theorems settling the claims. -/

/-- C10: every failed songs fetch (non-2xx status or transport
failure, which land in the same `catch`) resets the stored song list
to `[]` while leaving the selection set and the current week
unchanged. -/
theorem c10_fetch_failure_clears_songs (s : AppState) :
    (applySongsFailure s).songs = [] ∧
    (applySongsFailure s).selected = s.selected ∧
    (applySongsFailure s).week = s.week :=
  ⟨rfl, rfl, rfl⟩

/-- C2 counterexample: with selection `{1,2,3}`, applying a successful
fetch whose song list has ids `{2,4}` leaves the selection `{1,2,3}`,
not `{2}` — the claimed pruning to the new list's ids does not
happen. -/
theorem c2_no_pruning_counterexample :
    (applySongsSuccess stateSel123 [songOf 2, songOf 4]).selected = {1, 2, 3} ∧
    (applySongsSuccess stateSel123 [songOf 2, songOf 4]).selected ≠ {2} :=
  ⟨rfl, by decide⟩

/-- C2 amended: a successful songs fetch stores the new list but never
touches the selection set — no pruning to the intersection with the
new ids occurs, so stale ids stay selected. -/
theorem c2_fetch_preserves_selection (s : AppState) (data : List Song) :
    (applySongsSuccess s data).selected = s.selected ∧
    (applySongsSuccess s data).songs = data :=
  ⟨rfl, rfl⟩

/-- C8 counterexample: after the newer fetch's result `[songOf 20]`
has been applied, a late-arriving stale result `[songOf 10]` is not
discarded — it overwrites the stored song list. -/
theorem c8_stale_overwrites_counterexample :
    (applySongsSuccess (applySongsSuccess stateEmptySel [songOf 20]) [songOf 10]).songs
      = [songOf 10] ∧
    (applySongsSuccess (applySongsSuccess stateEmptySel [songOf 20]) [songOf 10]).songs
      ≠ [songOf 20] :=
  ⟨rfl, by decide⟩

/-- C8 amended: the songs effect has no stale-response guard — every
fetch result overwrites the stored list unconditionally on arrival, so
the last result to arrive wins, regardless of which fetch was
initiated more recently. -/
theorem c8_last_arrival_wins (s : AppState) (d1 d2 : List Song) :
    (applySongsSuccess s d1).songs = d1 ∧
    (applySongsSuccess (applySongsSuccess s d2) d1).songs = d1 :=
  ⟨rfl, rfl⟩

/-- C1 counterexample: toggling the 11 distinct ids `0..10` starting
from the empty selection selects all 11 of them, not 10 — `toggleSong`
never rejects an add, whatever the current size. -/
theorem c1_no_cap_counterexample :
    ((List.range 11).foldl toggleSong ∅).card = 11 ∧
    ((List.range 11).foldl toggleSong ∅).card ≠ 10 := by
  constructor <;> decide

/-- C1 amended: `toggleSong` removes a present id and otherwise always
adds, with no size bound and no "selection limit reached" notice;
after toggling 11 distinct ids from empty all 11 are selected; the
`MAX_SELECTION = 10` bound is enforced only at vote submission, whose
guard rejects an oversized selection locally with the max-10
message. -/
theorem c1_toggle_unbounded_max_at_submit :
    (∀ (sel : Finset ℕ) (x : ℕ), x ∈ sel → toggleSong sel x = sel.erase x) ∧
    (∀ (sel : Finset ℕ) (x : ℕ), x ∉ sel → toggleSong sel x = insert x sel) ∧
    ((List.range 11).foldl toggleSong ∅).card = 11 ∧
    (∀ (s : AppState) (cred : String) (wid : ℕ), s.week = some wid → cred ≠ "" →
      MAX_SELECTION < s.selected.card →
      submitVoteGuard s cred = .noCall { s with error := submitMsgMax }) := by
  refine ⟨fun sel x h => by simp [toggleSong, h],
          fun sel x h => by simp [toggleSong, h],
          by decide,
          fun s cred wid hweek hcred hcard => ?_⟩
  simp only [submitVoteGuard, hweek]
  rw [if_neg hcred, if_neg (by omega), if_pos hcard]

/-- Witness for the amended C1 at concrete inputs. -/
theorem c1_toggle_unbounded_max_at_submit_witness :
    toggleSong {5} 5 = Finset.erase {5} 5 ∧
    toggleSong {5} 7 = insert 7 {5} ∧
    submitVoteGuard stateSel11 "tg" = .noCall { stateSel11 with error := submitMsgMax } :=
  ⟨c1_toggle_unbounded_max_at_submit.1 {5} 5 (by decide),
   c1_toggle_unbounded_max_at_submit.2.1 {5} 7 (by decide),
   c1_toggle_unbounded_max_at_submit.2.2.2 stateSel11 "tg" 1 rfl (by decide) (by decide)⟩

/-- C3: a resolved vote submission succeeds exactly on a 2xx response;
on success the selection is emptied and `voteOk` is set; on any error
(non-2xx or transport failure) the selection is exactly what it was
before the submit and `voteOk` is not newly set. -/
theorem c3_vote_resolution (s : AppState) (resp : VoteResponse) :
    ((applyVoteResponse s resp).2 = .success ↔ respOk resp = true) ∧
    ((applyVoteResponse s resp).2 = .success →
      (applyVoteResponse s resp).1.selected = ∅ ∧
      (applyVoteResponse s resp).1.voteOk = true) ∧
    ((applyVoteResponse s resp).2 = .error →
      (applyVoteResponse s resp).1.selected = s.selected ∧
      (applyVoteResponse s resp).1.voteOk = s.voteOk ∧
      (applyVoteResponse s resp).2 ≠ .success) := by
  cases resp with
  | http status detail =>
    by_cases h : isOk status = true
    · simp [applyVoteResponse, respOk, h]
    · simp [applyVoteResponse, respOk, h]
  | netFail => simp [applyVoteResponse, respOk]

/-- Witness for C3: a 200 response clears the selection `{1,2,3}`; a
409 response leaves it untouched and does not report success. -/
theorem c3_vote_resolution_witness :
    ((applyVoteResponse stateSel123 (.http 200 "ok")).1.selected = ∅ ∧
      (applyVoteResponse stateSel123 (.http 200 "ok")).1.voteOk = true) ∧
    ((applyVoteResponse stateSel123 (.http 409 "dup")).1.selected = stateSel123.selected ∧
      (applyVoteResponse stateSel123 (.http 409 "dup")).1.voteOk = stateSel123.voteOk ∧
      (applyVoteResponse stateSel123 (.http 409 "dup")).2 ≠ .success) :=
  ⟨(c3_vote_resolution stateSel123 (.http 200 "ok")).2.1 (by decide),
   (c3_vote_resolution stateSel123 (.http 409 "dup")).2.2 (by decide)⟩

/-- C4: with a week loaded, each of the three local guards of
`submitVote` (absent credential, empty selection, selection larger
than `MAX_SELECTION`) returns before the network call with only its
own distinct error message set — the selection and the `isVoting` flag
are untouched, so the state never enters `sending`; with no week
loaded the submission is likewise rejected locally, silently. -/
theorem c4_submit_local_guards (s : AppState) (cred : String) :
    (s.week = none → submitVoteGuard s cred = .noCall s) ∧
    (∀ wid, s.week = some wid →
      (cred = "" →
        submitVoteGuard s cred = .noCall { s with error := submitMsgNoInit }) ∧
      (cred ≠ "" → s.selected.card = 0 →
        submitVoteGuard s cred = .noCall { s with error := submitMsgEmpty }) ∧
      (cred ≠ "" → MAX_SELECTION < s.selected.card →
        submitVoteGuard s cred = .noCall { s with error := submitMsgMax })) ∧
    (∀ m, (SubmitStep.noCall { s with error := m }).madeCall = false ∧
      ({ s with error := m } : AppState).selected = s.selected ∧
      ({ s with error := m } : AppState).isVoting = s.isVoting) ∧
    (submitMsgNoInit ≠ submitMsgEmpty ∧ submitMsgNoInit ≠ submitMsgMax ∧
      submitMsgEmpty ≠ submitMsgMax) := by
  refine ⟨fun h => by simp [submitVoteGuard, h],
          fun wid hweek => ⟨fun hcred => ?_, fun hcred hcard => ?_, fun hcred hcard => ?_⟩,
          fun m => ⟨rfl, rfl, rfl⟩,
          by decide⟩
  · simp only [submitVoteGuard, hweek]
    rw [if_pos hcred]
  · simp only [submitVoteGuard, hweek]
    rw [if_neg hcred, if_pos hcard]
  · simp only [submitVoteGuard, hweek]
    rw [if_neg hcred, if_neg (by omega), if_pos hcard]

/-- Witness for C4: each guard observed at a concrete state — no week,
empty credential, empty selection, oversized selection. -/
theorem c4_submit_local_guards_witness :
    submitVoteGuard { stateEmptySel with week := none } "tg"
      = .noCall { stateEmptySel with week := none } ∧
    submitVoteGuard stateSel123 ""
      = .noCall { stateSel123 with error := submitMsgNoInit } ∧
    submitVoteGuard stateEmptySel "tg"
      = .noCall { stateEmptySel with error := submitMsgEmpty } ∧
    submitVoteGuard stateSel11 "tg"
      = .noCall { stateSel11 with error := submitMsgMax } :=
  ⟨(c4_submit_local_guards { stateEmptySel with week := none } "tg").1 rfl,
   ((c4_submit_local_guards stateSel123 "").2.1 1 rfl).1 rfl,
   ((c4_submit_local_guards stateEmptySel "tg").2.1 1 rfl).2.1 (by decide) (by decide),
   ((c4_submit_local_guards stateSel11 "tg").2.1 1 rfl).2.2 (by decide) (by decide)⟩

/-- If the guard phase issued the network call, the state it left
behind has `isVoting = true`. -/
theorem submitVoteGuard_call_isVoting (s : AppState) (cred : String)
    (s1 : AppState) (wid : Nat) (ids : List Nat)
    (h : submitVoteGuard s cred = .call s1 wid ids) : s1.isVoting = true := by
  unfold submitVoteGuard at h
  cases hw : s.week with
  | none => rw [hw] at h; exact absurd h (by simp)
  | some wid' =>
    rw [hw] at h
    split_ifs at h with h1 h2 h3
    simp only [SubmitStep.call.injEq] at h
    rw [← h.1]

/-- C5: vote submission is single-flight at the only submit entry
point, the VOTE button — while `isVoting` is set the disabled button
ignores a press (no state change, no network call), and after a press
that did start a network call the next press is ignored, so two rapid
presses produce exactly one call. -/
theorem c5_single_flight_vote (s : AppState) (cred : String) :
    (s.isVoting = true → pressVote s cred = .noCall s) ∧
    (∀ s1 wid ids, pressVote s cred = .call s1 wid ids →
      pressVote s1 cred = .noCall s1) := by
  constructor
  · intro h
    simp [pressVote, h]
  · intro s1 wid ids h
    unfold pressVote at h
    split at h
    · exact absurd h (by simp)
    · have hv : s1.isVoting = true := submitVoteGuard_call_isVoting s cred s1 wid ids h
      simp [pressVote, hv]

/-- Witness for C5: from a ready state a press issues the call and a
second press on the resulting in-flight state is ignored. -/
theorem c5_single_flight_vote_witness :
    pressVote { stateOneSel with isVoting := true } "tg"
      = .noCall { stateOneSel with isVoting := true } ∧
    pressVote { stateOneSel with isVoting := true, error := "" } "tg"
      = .noCall { stateOneSel with isVoting := true, error := "" } :=
  ⟨(c5_single_flight_vote { stateOneSel with isVoting := true } "tg").1 rfl,
   (c5_single_flight_vote stateOneSel "tg").2
     { stateOneSel with isVoting := true, error := "" } 1
     (Finset.sort (· ≤ ·) ({1} : Finset ℕ)) (by rfl)⟩

/-- A song with a direct (non-YouTube) audio preview. -/
def songA : Song :=
  { id := 1, artist := "a", title := "x", is_new := false, source := "",
    preview_url := some "https://cdn.example/a.mp3" }

/-- A second song with a direct audio preview. -/
def songB : Song :=
  { id := 2, artist := "b", title := "y", is_new := false, source := "",
    preview_url := some "https://cdn.example/b.mp3" }

/-- Ownership invariant of the preview resource: any Audio that is
still audible is the one `audioRef` points at. -/
def previewInv (ps : PreviewState) : Prop :=
  ∀ (j : Nat) (a : AudioObj), ps.audios[j]? = some a → a.active = true →
    ps.current = some j

theorem pauseAt_getElem?_ne (l : List AudioObj) (i j : Nat) (h : i ≠ j) :
    (pauseAt l i)[j]? = l[j]? := by
  unfold pauseAt
  cases hl : l[i]? with
  | none => rfl
  | some b => exact List.getElem?_set_ne h

theorem pauseAt_inactive (l : List AudioObj) (i : Nat) (a : AudioObj)
    (h : (pauseAt l i)[i]? = some a) : a.active = false := by
  unfold pauseAt at h
  cases hl : l[i]? with
  | none => rw [hl] at h; rw [hl] at h; cases h
  | some b =>
    rw [hl] at h
    have hlt : i < l.length := (List.getElem?_eq_some.mp hl).1
    rw [List.getElem?_set_self hlt] at h
    cases h
    rfl

/-- If nothing is referenced, the invariant forces every audio to be
silent. -/
theorem no_current_all_inactive (ps : PreviewState) (h : previewInv ps)
    (hc : ps.current = none) :
    ∀ (j : Nat) (a : AudioObj), ps.audios[j]? = some a → a.active = false := by
  intro j a hj
  cases hact : a.active with
  | false => rfl
  | true => rw [h j a hj hact] at hc; cases hc

/-- Pausing the referenced audio silences everything: any other audio
was already silent by the invariant. -/
theorem pauseAt_all_inactive (ps : PreviewState) (i : Nat) (h : previewInv ps)
    (hc : ps.current = some i) :
    ∀ (j : Nat) (a : AudioObj), (pauseAt ps.audios i)[j]? = some a →
      a.active = false := by
  intro j a hj
  by_cases hij : i = j
  · subst hij
    exact pauseAt_inactive _ _ _ hj
  · rw [pauseAt_getElem?_ne _ _ _ hij] at hj
    cases hact : a.active with
    | false => rfl
    | true =>
      rw [h j a hj hact] at hc
      exact absurd (Option.some.inj hc) (Ne.symm hij)

theorem stopAudio_audios (ps : PreviewState) :
    (stopAudio ps).audios =
      match ps.current with
      | some i => pauseAt ps.audios i
      | none => ps.audios := rfl

theorem stopAudio_all_inactive (ps : PreviewState) (h : previewInv ps) :
    ∀ (j : Nat) (a : AudioObj), (stopAudio ps).audios[j]? = some a →
      a.active = false := by
  intro j a hj
  rw [stopAudio_audios] at hj
  cases hc : ps.current with
  | none =>
    rw [hc] at hj
    exact no_current_all_inactive ps h hc j a hj
  | some i =>
    rw [hc] at hj
    exact pauseAt_all_inactive ps i h hc j a hj

theorem previewInv_stopAudio (ps : PreviewState) (h : previewInv ps) :
    previewInv (stopAudio ps) := by
  intro j a hj hact
  rw [stopAudio_all_inactive ps h j a hj] at hact
  cases hact

theorem previewInv_playPreview (ps : PreviewState) (song : Song)
    (h : previewInv ps) : previewInv (playPreview ps song) := by
  by_cases hp : ps.playingId = some song.id
  · have he : playPreview ps song = stopAudio ps := by
      simp [playPreview, hp]
    rw [he]
    exact previewInv_stopAudio ps h
  · cases hu : song.preview_url with
    | none =>
      have he : playPreview ps song = stopAudio ps := by
        simp [playPreview, hp, hu]
      rw [he]
      exact previewInv_stopAudio ps h
    | some p =>
      by_cases hyt : isYouTubeUrl p = true
      · have he : playPreview ps song = stopAudio ps := by
          simp [playPreview, hp, hu, hyt]
        rw [he]
        exact previewInv_stopAudio ps h
      · have he : playPreview ps song =
            { audios := (stopAudio ps).audios ++ [{ songId := song.id, active := true }],
              current := some (stopAudio ps).audios.length,
              playingId := some song.id } := by
          simp [playPreview, hp, hu, hyt]
        rw [he]
        intro j a hj hact
        rw [List.getElem?_append] at hj
        by_cases hlt : j < (stopAudio ps).audios.length
        · rw [if_pos hlt] at hj
          rw [stopAudio_all_inactive ps h j a hj] at hact
          cases hact
        · rw [if_neg hlt] at hj
          have hj0 : j - (stopAudio ps).audios.length = 0 := by
            by_contra hne
            rcases Nat.exists_eq_succ_of_ne_zero hne with ⟨n, hn⟩
            rw [hn] at hj
            simp at hj
          have : j = (stopAudio ps).audios.length := by omega
          rw [this]

theorem previewInv_onEnded (ps : PreviewState) (h : previewInv ps) :
    previewInv (onEnded ps) := by
  cases hc : ps.current with
  | none =>
    have he : onEnded ps = ps := by simp [onEnded, hc]
    rw [he]
    exact h
  | some i =>
    have he : onEnded ps =
        { audios := pauseAt ps.audios i, current := none, playingId := none } := by
      simp [onEnded, hc]
    rw [he]
    intro j a hj hact
    rw [pauseAt_all_inactive ps i h hc j a hj] at hact
    cases hact

theorem previewInv_onPlayFailed (ps : PreviewState) (h : previewInv ps) :
    previewInv (onPlayFailed ps) := by
  cases hc : ps.current with
  | none =>
    have he : onPlayFailed ps = { ps with playingId := none } := by
      simp [onPlayFailed, hc]
    rw [he]
    intro j a hj hact
    exact h j a hj hact
  | some i =>
    have he : onPlayFailed ps =
        { ps with audios := pauseAt ps.audios i, playingId := none } := by
      simp [onPlayFailed, hc]
    rw [he]
    intro j a hj hact
    rw [pauseAt_all_inactive ps i h hc j a hj] at hact
    cases hact

theorem previewInv_teardown (ps : PreviewState) (h : previewInv ps) :
    previewInv (teardownPreview ps) := by
  cases hc : ps.current with
  | none =>
    have he : teardownPreview ps = { ps with current := none } := by
      simp [teardownPreview, hc]
    rw [he]
    intro j a hj hact
    rw [no_current_all_inactive ps h hc j a hj] at hact
    cases hact
  | some i =>
    have he : teardownPreview ps =
        { ps with audios := pauseAt ps.audios i, current := none } := by
      simp [teardownPreview, hc]
    rw [he]
    intro j a hj hact
    rw [pauseAt_all_inactive ps i h hc j a hj] at hact
    cases hact

theorem previewInv_step (ps : PreviewState) (e : PEvent) (h : previewInv ps) :
    previewInv (stepPreview ps e) := by
  cases e with
  | toggle song => exact previewInv_playPreview ps song h
  | ended => exact previewInv_onEnded ps h
  | playFailed => exact previewInv_onPlayFailed ps h
  | teardown => exact previewInv_teardown ps h

theorem previewInv_foldl (es : List PEvent) :
    ∀ ps : PreviewState, previewInv ps → previewInv (es.foldl stepPreview ps) := by
  induction es with
  | nil => exact fun ps h => h
  | cons e t ih => exact fun ps h => ih (stepPreview ps e) (previewInv_step ps e h)

theorem previewInv_run (es : List PEvent) : previewInv (runPreview es) :=
  previewInv_foldl es initPreview (fun j a hj => by cases hj)

/-- A list all of whose audible members must sit at one fixed index
(shifted by `k`) has at most one audible member. -/
theorem countP_active_le_one (l : List AudioObj) (cur : Option Nat) :
    ∀ k : Nat,
    (∀ (j : Nat) (a : AudioObj), l[j]? = some a → a.active = true →
      cur = some (k + j)) →
    l.countP (fun a => a.active) ≤ 1 := by
  induction l with
  | nil => intro k _; simp
  | cons x t ih =>
    intro k h
    rw [List.countP_cons]
    cases hx : x.active with
    | false =>
      have ht := ih (k + 1) (fun j a hj ha => by
        have := h (j + 1) a (by simpa using hj) ha
        rw [show k + (j + 1) = k + 1 + j by omega] at this
        exact this)
      simp [hx]
      omega
    | true =>
      have hcur : cur = some (k + 0) := h 0 x (by simp) hx
      have ht : t.countP (fun a => a.active) = 0 := by
        rw [List.countP_eq_zero]
        intro a ha hact
        obtain ⟨n, hn⟩ := List.mem_iff_getElem?.mp ha
        have := h (n + 1) a (by simpa using hn) hact
        rw [hcur] at this
        have := Option.some.inj this
        omega
      simp [hx, ht]

theorem activeCount_le_one (ps : PreviewState) (h : previewInv ps) :
    activeCount ps ≤ 1 :=
  countP_active_le_one ps.audios ps.current 0
    (fun j a hj ha => by rw [Nat.zero_add]; exact h j a hj ha)

/-- C9: across every sequence of preview events from the initial
state, at most one preview is audible at a time; toggling `songA` then
`songB` leaves only `songB` marked playing with `songA`'s audio
stopped; and when the referenced audio reaches its natural end, the
`ended` event clears the active-playback state. -/
theorem c9_preview_single_playback :
    (∀ es : List PEvent, activeCount (runPreview es) ≤ 1) ∧
    runPreview [.toggle songA, .toggle songB]
      = { audios := [{ songId := 1, active := false }, { songId := 2, active := true }],
          current := some 1, playingId := some 2 } ∧
    (∀ (ps : PreviewState) (i : Nat), ps.current = some i →
      (stepPreview ps .ended).playingId = none) := by
  refine ⟨fun es => activeCount_le_one _ (previewInv_run es), by decide,
          fun ps i hc => ?_⟩
  show (onEnded ps).playingId = none
  unfold onEnded
  rw [hc]

/-- Witness for C9: after starting `songA`'s preview the `ended` event
clears `playingId`. -/
theorem c9_preview_single_playback_witness :
    (stepPreview (runPreview [.toggle songA]) .ended).playingId = none :=
  c9_preview_single_playback.2.2 (runPreview [.toggle songA]) 0 (by decide)

/-! Properties of the lexicographic comparison used by the sort. -/

theorem lexOrd_eq_iff : ∀ x y : List Nat, lexOrd x y = Ordering.eq ↔ x = y := by
  intro x
  induction x with
  | nil => intro y; cases y <;> simp [lexOrd]
  | cons a as ih =>
    intro y
    cases y with
    | nil => simp [lexOrd]
    | cons b bs =>
      cases h : compare a b with
      | lt =>
        have hne : a ≠ b := Nat.ne_of_lt (Nat.compare_eq_lt.mp h)
        simp [lexOrd, h, hne]
      | eq =>
        have hab := Nat.compare_eq_eq.mp h
        subst hab
        simp [lexOrd, h, ih bs]
      | gt =>
        have hne : a ≠ b := (Nat.ne_of_lt (Nat.compare_eq_gt.mp h)).symm
        simp [lexOrd, h, hne]

theorem lexOrd_gt_iff : ∀ x y : List Nat, lexOrd x y = Ordering.gt ↔ lexOrd y x = Ordering.lt := by
  intro x
  induction x with
  | nil => intro y; cases y <;> simp [lexOrd]
  | cons a as ih =>
    intro y
    cases y with
    | nil => simp [lexOrd]
    | cons b bs =>
      cases h : compare a b with
      | lt =>
        have h' : compare b a = Ordering.gt := Nat.compare_eq_gt.mpr (Nat.compare_eq_lt.mp h)
        simp [lexOrd, h, h']
      | eq =>
        have hab := Nat.compare_eq_eq.mp h
        have h' : compare b a = Ordering.eq := Nat.compare_eq_eq.mpr hab.symm
        simp [lexOrd, h, h', ih bs]
      | gt =>
        have h' : compare b a = Ordering.lt := Nat.compare_eq_lt.mpr (Nat.compare_eq_gt.mp h)
        simp [lexOrd, h, h']

theorem lexOrd_lt_trans :
    ∀ x y z : List Nat, lexOrd x y = Ordering.lt → lexOrd y z = Ordering.lt →
      lexOrd x z = Ordering.lt := by
  intro x
  induction x with
  | nil =>
    intro y z hxy hyz
    cases y with
    | nil => simp [lexOrd] at hxy
    | cons c cs =>
      cases z with
      | nil => simp [lexOrd] at hyz
      | cons d ds => simp [lexOrd]
  | cons a as ih =>
    intro y z hxy hyz
    cases y with
    | nil => simp [lexOrd] at hxy
    | cons b bs =>
      cases z with
      | nil => simp [lexOrd] at hyz
      | cons c cs =>
        cases hab : compare a b with
        | gt => simp [lexOrd, hab] at hxy
        | lt =>
          cases hbc : compare b c with
          | gt => simp [lexOrd, hbc] at hyz
          | lt =>
            have hac : a < c :=
              Nat.lt_trans (Nat.compare_eq_lt.mp hab) (Nat.compare_eq_lt.mp hbc)
            simp [lexOrd, Nat.compare_eq_lt.mpr hac]
          | eq =>
            have hbc' := Nat.compare_eq_eq.mp hbc
            have hac : a < c := hbc' ▸ Nat.compare_eq_lt.mp hab
            simp [lexOrd, Nat.compare_eq_lt.mpr hac]
        | eq =>
          have hab' := Nat.compare_eq_eq.mp hab
          cases hbc : compare b c with
          | gt => simp [lexOrd, hbc] at hyz
          | lt =>
            have hac : a < c := by
              rw [hab']
              exact Nat.compare_eq_lt.mp hbc
            simp [lexOrd, Nat.compare_eq_lt.mpr hac]
          | eq =>
            have hbc' := Nat.compare_eq_eq.mp hbc
            have hac : compare a c = Ordering.eq := Nat.compare_eq_eq.mpr (hab'.trans hbc')
            simp [lexOrd, hab] at hxy
            simp [lexOrd, hbc] at hyz
            simp [lexOrd, hac]
            exact ih bs cs hxy hyz

theorem sortByArtistThenTitle_gt_iff (a b : Song) :
    sortByArtistThenTitle a b = Ordering.gt ↔ sortByArtistThenTitle b a = Ordering.lt := by
  unfold sortByArtistThenTitle
  cases h : lexOrd (lowKey a.artist) (lowKey b.artist) with
  | lt =>
    have h' : lexOrd (lowKey b.artist) (lowKey a.artist) = Ordering.gt :=
      (lexOrd_gt_iff _ _).mpr h
    simp [h, h']
  | eq =>
    have hk := (lexOrd_eq_iff _ _).mp h
    have h' : lexOrd (lowKey b.artist) (lowKey a.artist) = Ordering.eq :=
      (lexOrd_eq_iff _ _).mpr hk.symm
    simp [h, h', lexOrd_gt_iff]
  | gt =>
    have h' : lexOrd (lowKey b.artist) (lowKey a.artist) = Ordering.lt :=
      (lexOrd_gt_iff _ _).mp h
    simp [h, h']

theorem songLE_total (a b : Song) : (songLE a b || songLE b a) = true := by
  unfold songLE
  cases h : sortByArtistThenTitle a b with
  | lt => simp
  | eq => simp
  | gt =>
    have h' := (sortByArtistThenTitle_gt_iff a b).mp h
    rw [h']
    rfl

theorem songLE_iff (a b : Song) : songLE a b = true ↔
    (lexOrd (lowKey a.artist) (lowKey b.artist) = Ordering.lt ∨
      (lowKey a.artist = lowKey b.artist ∧
        (lexOrd (lowKey a.title) (lowKey b.title) = Ordering.lt ∨
          lowKey a.title = lowKey b.title))) := by
  unfold songLE sortByArtistThenTitle
  cases h : lexOrd (lowKey a.artist) (lowKey b.artist) with
  | lt => simp [h]
  | eq =>
    have hk := (lexOrd_eq_iff _ _).mp h
    cases h2 : lexOrd (lowKey a.title) (lowKey b.title) with
    | lt => simp [h, h2, hk]
    | eq => simp [h, h2, hk, (lexOrd_eq_iff _ _).mp h2]
    | gt =>
      have hne : lowKey a.title ≠ lowKey b.title := by
        intro hh
        rw [(lexOrd_eq_iff _ _).mpr hh] at h2
        cases h2
      simp [h, h2, hk, hne]
  | gt =>
    have hne : lowKey a.artist ≠ lowKey b.artist := by
      intro hh
      rw [(lexOrd_eq_iff _ _).mpr hh] at h
      cases h
    simp [h, hne]

theorem songLE_trans (a b c : Song) (h1 : songLE a b = true) (h2 : songLE b c = true) :
    songLE a c = true := by
  rw [songLE_iff] at h1 h2 ⊢
  rcases h1 with h1 | ⟨ha1, h1t⟩
  · rcases h2 with h2 | ⟨ha2, _⟩
    · exact Or.inl (lexOrd_lt_trans _ _ _ h1 h2)
    · rw [← ha2]
      exact Or.inl h1
  · rcases h2 with h2 | ⟨ha2, h2t⟩
    · rw [← ha1] at h2
      exact Or.inl h2
    · refine Or.inr ⟨ha1.trans ha2, ?_⟩
      rcases h1t with h1t | h1t
      · rcases h2t with h2t | h2t
        · exact Or.inl (lexOrd_lt_trans _ _ _ h1t h2t)
        · rw [h2t] at h1t
          exact Or.inl h1t
      · rcases h2t with h2t | h2t
        · rw [h1t]
          exact Or.inl h2t
        · exact Or.inr (h1t.trans h2t)

/-- C6: for every raw list and tab, the derived display list is a
permutation of the subset passing the tab predicate, it is sorted by
the artist-then-title comparator (ascending, case-insensitive, one and
the same comparison whatever the tab), and the derivation is
idempotent.  Purity and non-mutation of the input hold by construction
in this embedding, as in the code, which sorts a spread copy. -/
theorem c6_display_songs_spec (L : List Song) (t : Tab) :
    (displaySongs L t).Perm (L.filter (tabPred t)) ∧
    List.Pairwise (fun a b => songLE a b = true) (displaySongs L t) ∧
    displaySongs (displaySongs L t) t = displaySongs L t := by
  have hperm := List.mergeSort_perm (L.filter (tabPred t)) songLE
  have hsorted := @List.sorted_mergeSort Song songLE songLE_trans songLE_total
    (L.filter (tabPred t))
  refine ⟨hperm, hsorted, ?_⟩
  unfold displaySongs
  have hfil : (List.mergeSort (L.filter (tabPred t)) songLE).filter (tabPred t)
      = List.mergeSort (L.filter (tabPred t)) songLE := by
    rw [List.filter_eq_self]
    intro a ha
    exact List.of_mem_filter (hperm.mem_iff.mp ha)
  rw [hfil]
  exact List.mergeSort_of_sorted hsorted

/-- Lowered character sequence of a string, for the substring test. -/
def lowChars (s : String) : List Char := s.data.map Char.toLower

/-- Modelled from the spec's words (view-derivation step 2), solely to
state C7: a song matches a search text when its case-insensitive
artist or title contains the case-insensitive text as a substring.
The client code contains no such filter — `displaySongs` does not look
at the search text. -/
def specSearchMatches (q : String) (s : Song) : Bool :=
  strContains (lowChars s.artist) (lowChars q) ||
    strContains (lowChars s.title) (lowChars q)

/-- C7 counterexample: with the non-empty, already-trimmed search text
"zzz", the derivation still displays `songOf 1` (artist "a", title
"t"), which matches neither by artist nor by title — so the view
derivation does not keep exactly the songs matching the search. -/
theorem c7_no_client_search_counterexample :
    songOf 1 ∈ displaySongs [songOf 1] Tab.all ∧
    specSearchMatches "zzz" (songOf 1) = false := by
  constructor
  · have hperm := List.mergeSort_perm ([songOf 1].filter (tabPred Tab.all)) songLE
    unfold displaySongs
    exact hperm.mem_iff.mpr (by decide)
  · decide

/-- C7 amended: search filtering is server-side only — the songs
request carries the raw search text (with `filter=all`), and the
client derivation keeps every fetched song passing the tab predicate
regardless of the search text. -/
theorem c7_search_is_server_side (wid : Nat) (q : String) (L : List Song) (t : Tab)
    (s : Song) :
    (songsQuery wid q).filter = "all" ∧
    (songsQuery wid q).search = q ∧
    (s ∈ L → tabPred t s = true → s ∈ displaySongs L t) := by
  refine ⟨rfl, rfl, fun hmem hp => ?_⟩
  have hperm := List.mergeSort_perm (L.filter (tabPred t)) songLE
  unfold displaySongs
  exact hperm.mem_iff.mpr (List.mem_filter.mpr ⟨hmem, hp⟩)

/-- Witness for the amended C7: a fetched song is displayed although
it does not match the search text the request carried. -/
theorem c7_search_is_server_side_witness :
    songOf 2 ∈ displaySongs [songOf 2] Tab.all :=
  (c7_search_is_server_side 1 "zzz" [songOf 2] Tab.all (songOf 2)).2.2
    (by decide) (by decide)

end Deerzone
